import Mathlib

/-!
Verification of the rooster password manager against its specification.

The Rust sources are shallowly embedded: byte buffers (`SafeVec`) become
`List Nat`, sensitive strings (`SafeString`) become `String`, fallible Rust
functions become `Except`/`Option` returning Lean functions, and a Rust
panic is modelled as `Option.none`.  The `password` module (the v2 store,
its codec and the v1 migrator) is not part of the sources at hand, only its
callers are; its pieces are modelled from the specification and marked as
such in their doc comments.
-/

namespace Rooster

/-- The closed error taxonomy of the engine (spec §7, and the variants
matched in `src/password_store.rs`).  `IoErr` models `PasswordError::Io`
with the underlying error abstracted to a numeric code; `DecryptionError`
stands for the wrong-password style decryption failure that the visible
code only ever handles through a catch-all `_` arm. -/
inductive PasswordError where
  | CorruptionError
  | CorruptionLikelyError
  | OutdatedRoosterBinaryError
  | NeedUpgradeErrorFromV1
  | NoUpgradeError
  | DuplicateEntry
  | NotFound
  | IoErr (code : Nat)
  | DecryptionError
deriving DecidableEq

/-- Modelled from the spec: `PasswordEntry { name, username, password }`;
`name` is the unique key within a store (spec §3).  The v2 `Password`
struct lives in the absent `password` module. -/
structure Password where
  name : String
  username : String
  password : String
deriving DecidableEq

/-- Modelled from the spec: the in-memory, unlocked view holding the
decrypted entry collection (spec §3, §4.5).  The v2 `PasswordStore` lives
in the absent `password` module; key material is irrelevant to the claims
below and is not modelled. -/
structure PasswordStore where
  passwords : List Password
deriving DecidableEq

/-- Byte buffer (`rtoolbox::safe_vec::SafeVec`). -/
def SafeVec : Type := List Nat

/-- Sensitive string (`rtoolbox::safe_string::SafeString`). -/
def SafeString : Type := String

/-- The interface of the absent `password` module that
`src/password_store.rs` calls into: `password::v2::PasswordStore::from_input`
(open a v2 container) and `password::upgrade` (migrate a v1 container).
The embedding is parametric in this record, so theorems about the retry
and upgrade logic hold for every behaviour of the inner open. -/
structure PasswordModule where
  from_input : SafeVec → SafeString → Except PasswordError PasswordStore
  upgrade : SafeString → SafeVec → Except PasswordError PasswordStore

/-- `get_password_store_from_input` of `src/password_store.rs` (lines
121–156): try the v2 open as is; pass `CorruptionError`,
`OutdatedRoosterBinaryError` and every other error through unchanged,
except that a `NeedUpgradeErrorFromV1` is surfaced when `upgrade` is
`false` and is retried through `password::upgrade` when it is `true`. -/
def get_password_store_from_input (m : PasswordModule) (input : SafeVec)
    (master_password : SafeString) (upgrade : Bool) :
    Except PasswordError PasswordStore :=
  match m.from_input input master_password with
  | .ok store => .ok store
  | .error .CorruptionError => .error .CorruptionError
  | .error .OutdatedRoosterBinaryError => .error .OutdatedRoosterBinaryError
  | .error .NeedUpgradeErrorFromV1 =>
    if !upgrade then
      .error .NeedUpgradeErrorFromV1
    else
      match m.upgrade master_password input with
      | .ok store => .ok store
      | .error err => .error err
  | .error err => .error err

/-- A module whose v2 open always reports a legacy container. -/
def legacy_module : PasswordModule where
  from_input := fun _ _ => .error .NeedUpgradeErrorFromV1
  upgrade := fun _ _ => .ok ⟨[]⟩

/-- A response to `user_input::ask_master_password`: an io error code or a
master password. -/
abbrev PwResp := Except Nat SafeString

/-- A response to `io.read_line`: an io error code or a line, viewed as its
character sequence. -/
abbrev LineResp := Except Nat (List Char)

/-- The io state after a run: the remaining responses of each stream. -/
structure IoState where
  passwords : List PwResp
  lines : List LineResp

/-- Rust `str::starts_with(c)` for a single-character pattern. -/
def line_starts_with (l : List Char) (c : Char) : Bool :=
  match l with
  | [] => false
  | c0 :: _ => c0 == c

/-- The inner loop of `get_password_store_from_input_interactive`
(`src/password_store.rs` lines 86–113): keep reading lines until one starts
with `y` (answer `.ok true`), one starts with `n` (answer `.ok false`), or a
read fails; `none` means the modelled response stream ran out (the real
loop would block waiting for input). -/
def read_upgrade_answer : List LineResp → Option (Except Nat Bool × List LineResp)
  | [] => none
  | .error e :: rest => some (.error e, rest)
  | .ok line :: rest =>
    if line_starts_with line 'y' then some (.ok true, rest)
    else if line_starts_with line 'n' then some (.ok false, rest)
    else read_upgrade_answer rest

/-- `get_password_store_from_input_interactive` of `src/password_store.rs`
(lines 19–119).  A retry budget of `0` is converted into
`CorruptionLikelyError` before any prompt; otherwise one master password is
consumed from the stream (a failed read surfaces as an io error), the open
is attempted, `CorruptionError`, `OutdatedRoosterBinaryError` and io errors
are surfaced as-is, a legacy container triggers the upgrade question, and
any other failure recurses with the budget decremented.  The result is
`none` when a modelled response stream ran out; otherwise the remaining
streams are returned alongside the result.  Printing of error messages is
not modelled. -/
def get_password_store_from_input_interactive (m : PasswordModule) (input : SafeVec)
    (retries : Int) (force_upgrade : Bool) (retry : Bool)
    (pws : List PwResp) (lns : List LineResp) :
    Option (Except PasswordError PasswordStore × IoState) :=
  if retries = 0 then some (.error .CorruptionLikelyError, ⟨pws, lns⟩)
  else
    match pws with
    | [] => none
    | .error err :: ps => some (.error (.IoErr err), ⟨ps, lns⟩)
    | .ok master_password :: ps =>
      match get_password_store_from_input m input master_password force_upgrade with
      | .ok store => some (.ok store, ⟨ps, lns⟩)
      | .error .CorruptionError => some (.error .CorruptionError, ⟨ps, lns⟩)
      | .error .OutdatedRoosterBinaryError =>
        some (.error .OutdatedRoosterBinaryError, ⟨ps, lns⟩)
      | .error (.IoErr err) => some (.error (.IoErr err), ⟨ps, lns⟩)
      | .error .NeedUpgradeErrorFromV1 =>
        match hq : read_upgrade_answer lns with
        | none => none
        | some (.error io_err, rest) => some (.error (.IoErr io_err), ⟨ps, rest⟩)
        | some (.ok false, rest) => some (.error .NoUpgradeError, ⟨ps, rest⟩)
        | some (.ok true, rest) =>
          get_password_store_from_input_interactive m input retries true false ps rest
      | .error _ =>
        get_password_store_from_input_interactive m input (retries - 1) false true ps lns
termination_by pws.length + lns.length
decreasing_by
· have key : ∀ (ls0 : List LineResp) (a : Except Nat Bool) (rest0 : List LineResp),
      read_upgrade_answer ls0 = some (a, rest0) → rest0.length < ls0.length := by
    intro ls0 a rest0 h
    induction ls0 with
    | nil => simp [read_upgrade_answer] at h
    | cons x xs ih =>
      cases x with
      | error e =>
        simp only [read_upgrade_answer, Option.some.injEq, Prod.mk.injEq] at h
        simp [← h.2]
      | ok line =>
        simp only [read_upgrade_answer] at h
        by_cases hy : line_starts_with line 'y' = true
        · rw [if_pos hy] at h
          simp only [Option.some.injEq, Prod.mk.injEq] at h
          simp [← h.2]
        · rw [if_neg hy] at h
          by_cases hn : line_starts_with line 'n' = true
          · rw [if_pos hn] at h
            simp only [Option.some.injEq, Prod.mk.injEq] at h
            simp [← h.2]
          · rw [if_neg hn] at h
            exact Nat.lt_trans (ih h) (Nat.lt_succ_self _)
  have := key _ _ _ hq
  simp only [List.length_cons]
  omega
· simp only [List.length_cons]
  omega

/-- The decryption failures handled only through the catch-all `_` arm at
lines 115–117 of `src/password_store.rs`: everything except
`CorruptionError`, `OutdatedRoosterBinaryError`, `NeedUpgradeErrorFromV1`
and io errors. -/
def residual_decrypt_failure : PasswordError → Bool
  | .CorruptionError => false
  | .OutdatedRoosterBinaryError => false
  | .NeedUpgradeErrorFromV1 => false
  | .IoErr _ => false
  | _ => true

/-- A module whose v2 open always fails like a wrong password. -/
def wrong_pw_module : PasswordModule where
  from_input := fun _ _ => .error .DecryptionError
  upgrade := fun _ _ => .ok ⟨[]⟩

/-- A module whose v2 open always reports corruption. -/
def corrupt_module : PasswordModule where
  from_input := fun _ _ => .error .CorruptionError
  upgrade := fun _ _ => .ok ⟨[]⟩

/-- A module whose v2 open always reports a legacy container, with a
distinctive migration result so the forced re-run is visible. -/
def v1_module : PasswordModule where
  from_input := fun _ _ => .error .NeedUpgradeErrorFromV1
  upgrade := fun _ _ => .ok ⟨[⟨"app", "user", "pw"⟩]⟩

/-- Modelled from the spec: `has_password(name) -> bool` (spec §4.5); the
implementation lives in the absent `password` module. -/
def PasswordStore.has_password (s : PasswordStore) (name : String) : Bool :=
  s.passwords.any (fun p => p.name == name)

/-- Modelled from the spec: `add_password(entry)` fails with
`DuplicateEntry` if `entry.name` already exists, otherwise inserts; no
partial state on failure (spec §4.5).  The implementation lives in the
absent `password` module; mutation of `&mut self` is modelled by returning
the store next to the result. -/
def PasswordStore.add_password (s : PasswordStore) (entry : Password) :
    Except PasswordError Unit × PasswordStore :=
  if s.has_password entry.name then (.error .DuplicateEntry, s)
  else (.ok (), ⟨s.passwords ++ [entry]⟩)

/-- Modelled from the spec: `delete_password(name)` fails with `NotFound`
if no entry has that name, otherwise removes it (spec §4.5). -/
def PasswordStore.delete_password (s : PasswordStore) (name : String) :
    Except PasswordError Unit × PasswordStore :=
  if s.has_password name then
    (.ok (), ⟨s.passwords.filter (fun p => p.name != name)⟩)
  else (.error .NotFound, s)

/-- Modelled from the spec: `rename(old_name, new_name)` fails with
`DuplicateEntry` if `new_name` already exists and with `NotFound` if no
entry has `old_name`; otherwise it updates the one entry's name (spec §4.5
and §7; with unique names the map touches exactly one entry). -/
def PasswordStore.rename (s : PasswordStore) (old_name new_name : String) :
    Except PasswordError Unit × PasswordStore :=
  if s.has_password new_name then (.error .DuplicateEntry, s)
  else if s.has_password old_name then
    (.ok (), ⟨s.passwords.map (fun p =>
      if p.name == old_name then { p with name := new_name } else p)⟩)
  else (.error .NotFound, s)

/-- Modelled from the spec: `transfer(name, new_username)` fails with
`NotFound`; otherwise it updates the username field in place (spec §4.5). -/
def PasswordStore.transfer (s : PasswordStore) (name new_username : String) :
    Except PasswordError Unit × PasswordStore :=
  if s.has_password name then
    (.ok (), ⟨s.passwords.map (fun p =>
      if p.name == name then { p with username := new_username } else p)⟩)
  else (.error .NotFound, s)

/-- Modelled from the spec: `get_all_passwords` returns a snapshot of the
entry collection (spec §4.5). -/
def PasswordStore.get_all_passwords (s : PasswordStore) : List Password :=
  s.passwords

/-- Outcome of the TUI Add-tab Enter handler: the (possibly updated) store,
the popup message if one was raised, and whether the three Add inputs were
cleared (with the tab switched back to View). -/
structure TuiAddOutcome where
  store : PasswordStore
  popup_text : Option String
  inputs_cleared : Bool
deriving DecidableEq

/-- The Add-tab Enter branch of `TuiApp::handle_key_event`
(`src/gui/tui_app.rs` lines 339–373): take the three input values, reject a
duplicate app name with a popup before calling `add_password`, otherwise
add the entry and clear the inputs; an `add_password` error becomes a popup
(its exact formatted text is abstracted). -/
def tui_add_enter (store : PasswordStore) (app username pw : String) : TuiAddOutcome :=
  if store.has_password app then
    ⟨store, some "App with that name already exists.", false⟩
  else
    match store.add_password ⟨app, username, pw⟩ with
    | (.ok _, store') => ⟨store', none, true⟩
    | (.error _, store') => ⟨store', some "Error: add_password failed", false⟩

/-- A store with one `github` entry, as in spec §8 scenario 3. -/
def demo_store : PasswordStore := ⟨[⟨"github", "alice", "hunter2"⟩]⟩

/-- The list of entry names of a store. -/
def store_names (s : PasswordStore) : List String :=
  s.passwords.map Password.name

/-- Spec §3 invariant: entry names are unique within a store. -/
def names_unique (s : PasswordStore) : Prop :=
  (store_names s).Nodup

/-- One CRUD operation of the spec §4.5 surface. -/
inductive StoreOp where
  | add (entry : Password)
  | delete (name : String)
  | rename (old_name new_name : String)
  | transfer (name new_username : String)

/-- Run one CRUD operation; on failure the store is left as it was. -/
def apply_op (s : PasswordStore) : StoreOp → PasswordStore
  | .add e => (s.add_password e).2
  | .delete n => (s.delete_password n).2
  | .rename o n => (s.rename o n).2
  | .transfer n u => (s.transfer n u).2

/-- Run a sequence of CRUD operations. -/
def apply_ops (s : PasswordStore) (ops : List StoreOp) : PasswordStore :=
  ops.foldl apply_op s

/-- Modelled from the spec: the scrypt cost parameters (spec §3). -/
structure ScryptParams where
  log2n : Nat
  r : Nat
  p : Nat
deriving DecidableEq

/-- Modelled from the spec: `{ iv_or_nonce, ciphertext, integrity_tag }`
(spec §3). -/
structure EncryptedBlob where
  iv : List Nat
  ciphertext : List Nat
  tag : List Nat
deriving DecidableEq

/-- Modelled from the spec: the full on-disk representation
`{ version_tag, ScryptParams, Salt, EncryptedBlob }` (spec §3). -/
structure FileContainer where
  version_tag : Nat
  params : ScryptParams
  salt : List Nat
  blob : EncryptedBlob
deriving DecidableEq

/-- The current container version. -/
def current_version : Nat := 2

/-- Fixed salt length of the modelled layout. -/
def salt_len : Nat := 32

/-- Fixed iv/nonce length of the modelled layout. -/
def iv_len : Nat := 16

/-- Fixed integrity-tag length of the modelled layout. -/
def tag_len : Nat := 32

/-- Little-endian byte encoding of a `u32`. -/
def le32 (n : Nat) : List Nat :=
  [n % 256, n / 256 % 256, n / 65536 % 256, n / 16777216 % 256]

/-- Value of a 4-byte little-endian encoding. -/
def le32_val (b : List Nat) : Nat :=
  match b with
  | [b0, b1, b2, b3] => b0 + 256 * b1 + 65536 * b2 + 16777216 * b3
  | _ => 0

/-- Modelled from the spec: `serialize(FileContainer) -> bytes` (spec §4.3
and §6: version tag, then scrypt parameters, salt, iv/nonce, integrity
tag, ciphertext).  The codec lives in the absent `password` module and the
exact byte layout is an open question of the spec (§9); this is one
documented choice: one byte each for the version tag and `log2n`,
little-endian `u32` for `r` and `p`, fixed-length salt, iv and tag, the
ciphertext running to the end of the file. -/
def serialize (c : FileContainer) : List Nat :=
  c.version_tag :: c.params.log2n ::
    (le32 c.params.r ++ le32 c.params.p ++ c.salt ++ c.blob.iv ++ c.blob.tag ++
      c.blob.ciphertext)

/-- Read exactly `n` bytes, returning them and the remaining input. -/
def read_n (n : Nat) (bs : List Nat) : Option (List Nat × List Nat) :=
  match n, bs with
  | 0, bs => some ([], bs)
  | _ + 1, [] => none
  | n + 1, b :: bs => (read_n n bs).map (fun pr => (b :: pr.1, pr.2))

/-- Modelled from the spec: `parse(bytes) -> FileContainer | ParseError`
(spec §4.3): the fixed-position version tag is read first; a version above
the current one is `OutdatedRoosterBinaryError`, the legacy version 1 is
reported as `NeedUpgradeErrorFromV1` for the migrator, structurally
malformed bytes (truncated, bad field) are `CorruptionError`. -/
def parse (bytes : List Nat) : Except PasswordError FileContainer :=
  match bytes with
  | [] => .error .CorruptionError
  | v :: rest =>
    if v > current_version then .error .OutdatedRoosterBinaryError
    else if v = 1 then .error .NeedUpgradeErrorFromV1
    else if v = current_version then
      match rest with
      | [] => .error .CorruptionError
      | log2n :: rest1 =>
        match read_n 4 rest1 with
        | none => .error .CorruptionError
        | some (rb, rest2) =>
          match read_n 4 rest2 with
          | none => .error .CorruptionError
          | some (pb, rest3) =>
            match read_n salt_len rest3 with
            | none => .error .CorruptionError
            | some (salt, rest4) =>
              match read_n iv_len rest4 with
              | none => .error .CorruptionError
              | some (iv, rest5) =>
                match read_n tag_len rest5 with
                | none => .error .CorruptionError
                | some (tag, ciphertext) =>
                  .ok ⟨current_version, ⟨log2n, le32_val rb, le32_val pb⟩,
                    salt, ⟨iv, ciphertext, tag⟩⟩
    else .error .CorruptionError

/-- A current-version container the modelled layout can hold exactly:
version tag `2`, `log2n` one byte, `r` and `p` in `u32` range, salt, iv
and tag of their fixed lengths. -/
def FileContainer.wf (c : FileContainer) : Prop :=
  c.version_tag = current_version ∧ c.params.log2n < 256 ∧
  c.params.r < 4294967296 ∧ c.params.p < 4294967296 ∧
  c.salt.length = salt_len ∧ c.blob.iv.length = iv_len ∧
  c.blob.tag.length = tag_len

instance (c : FileContainer) : Decidable c.wf := by
  unfold FileContainer.wf
  infer_instance

/-- The sensitive buffers created by `commands::add::callback`
(`src/commands/add.rs`): the account password string typed by the user,
the `Password` entry built from it, and the master password. -/
inductive Buf where
  | account_password
  | entry
  | master_password
deriving DecidableEq

/-- Buffer events of one run of `commands::add::callback`, in program
order. -/
inductive Ev where
  | alloc (b : Buf)
  | scrub (b : Buf)
  | add_call
deriving DecidableEq

/-- `commands::add::callback` of `src/commands/add.rs` (lines 36–84) as
the trace of buffer events it performs.  A successful first
`read_password` allocates the account password, and `Password::new`
(line 43) builds the entry from it; a successful second `read_password`
allocates the master password, `add_password` is called, and — whether it
succeeded or failed — the master password is scrubbed right after the
match (line 67); the account password and the entry are scrubbed at the
end of the outer `Ok` branch (lines 76–77).  A failed read allocates
nothing in its branch and only prints.  `add_ok` is the outcome of
`add_password`, which only affects what is printed. -/
def add_callback_trace (account_read master_read : Option String)
    (add_ok : Bool) : List Ev :=
  match account_read with
  | none => []
  | some _ =>
    [.alloc .account_password, .alloc .entry] ++
    (match master_read with
     | none => []
     | some _ =>
       [.alloc .master_password, .add_call] ++
       (match add_ok with
        | true => []
        | false => []) ++
       [.scrub .master_password]) ++
    [.scrub .account_password, .scrub .entry]

/-- `only_digits` of `src/lib.rs` (lines 43–48): map `is_ascii_digit` over
the characters, collect, and test whether the collected list contains
`false` — so despite its name it returns `true` exactly when some
character is NOT an ascii digit. -/
def only_digits (s : List Char) : Bool :=
  (s.map (fun c => c.isDigit)).contains false

/-- Accumulated base-10 value of a character sequence; `none` as soon as a
non-digit appears. -/
def digits_value (s : List Char) : Option Nat :=
  s.foldl
    (fun acc c => acc.bind (fun v =>
      if c.isDigit then some (10 * v + (c.toNat - 48)) else none))
    (some 0)

/-- Drop the optional leading `+` sign accepted by Rust's integer
parser. -/
def strip_plus (s : List Char) : List Char :=
  match s with
  | [] => s
  | c :: rest => if c = '+' then rest else s

/-- Rust `str::parse` for an unsigned integer type with maximum value
`max` (`u8`/`u32`/`usize`): an optional leading `+`, then one or more
ascii digits, and the value must fit the type; anything else — the empty
string included — is a parse error. -/
def parse_uint (max : Nat) (s : List Char) : Option Nat :=
  if strip_plus s = [] then none
  else
    match digits_value (strip_plus s) with
    | none => none
    | some v => if v ≤ max then some v else none

/-- `usize::MAX` on a 64-bit target. -/
def usize_max : Nat := 18446744073709551615

/-- `u8::MAX`. -/
def u8_max : Nat := 255

/-- `u32::MAX`. -/
def u32_max : Nat := 4294967295

/-- `validate_arg_usize` of `src/lib.rs` (lines 50–55): `Err` when
`only_digits` reports a non-digit, otherwise `parse().unwrap()`; the
`unwrap` of a failed parse is a panic, modelled as `none`. -/
def validate_arg_usize (v : List Char) : Option (Except String Nat) :=
  if only_digits v then some (.error "The value must be made of digits")
  else
    match parse_uint usize_max v with
    | some n => some (.ok n)
    | none => none

/-- `validate_arg_u8` of `src/lib.rs` (lines 57–62). -/
def validate_arg_u8 (v : List Char) : Option (Except String Nat) :=
  if only_digits v then some (.error "The value must be made of digits")
  else
    match parse_uint u8_max v with
    | some n => some (.ok n)
    | none => none

/-- `validate_arg_u32` of `src/lib.rs` (lines 64–69). -/
def validate_arg_u32 (v : List Char) : Option (Except String Nat) :=
  if only_digits v then some (.error "The value must be made of digits")
  else
    match parse_uint u32_max v with
    | some n => some (.ok n)
    | none => none

/-- The common shape of the three validators, with the type's maximum as a
parameter; each of `validate_arg_usize`, `validate_arg_u8` and
`validate_arg_u32` is this shape at its own maximum (definitional
equality, checked below). -/
def validate_shape (max : Nat) (v : List Char) : Option (Except String Nat) :=
  if only_digits v then some (.error "The value must be made of digits")
  else
    match parse_uint max v with
    | some n => some (.ok n)
    | none => none

/-- Rust `usize` subtraction: underflow is an arithmetic-overflow error
(a panic under Rust's overflow checks), modelled as `none`. -/
def usize_sub (a b : Nat) : Option Nat :=
  if b ≤ a then some (a - b) else none

/-- The scroll-state computation of `render_view_tab`
(`src/gui/gui.rs` lines 168–171): `ScrollbarState::new((passwords.len() - 1)
* TABLE_ITEM_HEIGHT)` then `.position(selected.unwrap() * TABLE_ITEM_HEIGHT)`
with `TABLE_ITEM_HEIGHT = 1`; the pair is (content length, position).
`Option::unwrap` of `None` is a panic, modelled as `none`. -/
def render_view_tab_scroll (store : PasswordStore) (selected : Option Nat) :
    Option (Nat × Nat) :=
  match usize_sub store.get_all_passwords.length 1 with
  | none => none
  | some total =>
    match selected with
    | none => none
    | some idx => some (total * 1, idx * 1)

/-- The F2 branch of `TuiApp::handle_key_event` on the View tab
(`src/gui/tui_app.rs` lines 380–391): `table_state.selected().unwrap()`,
then `get_all_passwords()[index].clone().username` for the clipboard;
both the unwrap of `None` and an out-of-bounds index are panics (`none`). -/
def tui_f2_copy_username (store : PasswordStore) (selected : Option Nat) :
    Option String :=
  match selected with
  | none => none
  | some index =>
    match store.get_all_passwords.get? index with
    | none => none
    | some p => some p.username

/-- The F3 branch (`src/gui/tui_app.rs` lines 393–404), identical to F2
but copying the password field. -/
def tui_f3_copy_password (store : PasswordStore) (selected : Option Nat) :
    Option String :=
  match selected with
  | none => none
  | some index =>
    match store.get_all_passwords.get? index with
    | none => none
    | some p => some p.password

/-- The Ctrl+Shift+Del branch of `TuiApp::handle_key_event` on the View
tab (`src/gui/tui_app.rs` lines 538–571), after the modifier check: a
`None` selection returns early with nothing deleted; otherwise the name at
`get_all_passwords()[index]` is read (an out-of-bounds index is a panic,
`none`), that name is deleted (a failure only raises a popup, which is not
modelled), and the selection is updated using `total - 1` where `total`
is the length read before deleting.  The result is the new store and the
new selection. -/
def tui_delete_selected (store : PasswordStore) (selected : Option Nat) :
    Option (PasswordStore × Option Nat) :=
  match selected with
  | none => some (store, none)
  | some current_selected_index =>
    let total := store.get_all_passwords.length
    match store.get_all_passwords.get? current_selected_index with
    | none => none
    | some entry =>
      let store1 := (store.delete_password entry.name).2
      match usize_sub total 1 with
      | none => none
      | some t1 =>
        some (store1,
          if t1 = 0 then none
          else some (if current_selected_index = 0 then 0
            else current_selected_index - 1))

/-- C2: with `upgrade == false` a legacy (v1) container is surfaced as
`NeedUpgradeErrorFromV1` without attempting migration; with
`upgrade == true` the result is exactly that of `password::upgrade` on the
same input and master password. -/
theorem get_password_store_from_input_upgrade_dispatch
    (m : PasswordModule) (input : SafeVec) (mp : SafeString)
    (h : m.from_input input mp = .error .NeedUpgradeErrorFromV1) :
    get_password_store_from_input m input mp false =
      .error .NeedUpgradeErrorFromV1 ∧
    get_password_store_from_input m input mp true = m.upgrade mp input := by
  constructor
  · simp [get_password_store_from_input, h]
  · simp only [get_password_store_from_input, h]
    cases hu : m.upgrade mp input <;> simp [hu]

theorem get_password_store_from_input_upgrade_dispatch_witness :
    get_password_store_from_input legacy_module [] "mp" false =
      .error .NeedUpgradeErrorFromV1 ∧
    get_password_store_from_input legacy_module [] "mp" true =
      legacy_module.upgrade "mp" [] :=
  get_password_store_from_input_upgrade_dispatch legacy_module [] "mp" rfl

theorem interactive_zero_retries (m : PasswordModule) (input : SafeVec)
    (fu r : Bool) (ps : List PwResp) (ls : List LineResp) :
    get_password_store_from_input_interactive m input 0 fu r ps ls =
      some (.error .CorruptionLikelyError, ⟨ps, ls⟩) := by
  rw [get_password_store_from_input_interactive.eq_def]
  simp

theorem interactive_residual_step (m : PasswordModule) (input : SafeVec)
    (retries : Int) (fu r : Bool) (mp : SafeString) (ps : List PwResp)
    (ls : List LineResp) (e : PasswordError) (hr : retries ≠ 0)
    (h : get_password_store_from_input m input mp fu = .error e)
    (hres : residual_decrypt_failure e = true) :
    get_password_store_from_input_interactive m input retries fu r (.ok mp :: ps) ls =
      get_password_store_from_input_interactive m input (retries - 1) false true ps ls := by
  rw [get_password_store_from_input_interactive.eq_def, if_neg hr]
  simp only [h]
  cases e <;> first | rfl | simp [residual_decrypt_failure] at hres

theorem interactive_eventual_corruption_likely (m : PasswordModule) (input : SafeVec)
    (H : ∀ mp fu', ∃ e, get_password_store_from_input m input mp fu' = .error e ∧
        residual_decrypt_failure e = true) :
    ∀ (n : Nat) (fu r : Bool) (ps : List PwResp) (ls : List LineResp),
      n ≤ ps.length →
      (∀ resp ∈ ps.take n, ∃ mp, resp = .ok mp) →
      get_password_store_from_input_interactive m input (n : Int) fu r ps ls =
        some (.error .CorruptionLikelyError, ⟨ps.drop n, ls⟩) := by
  intro n
  induction n with
  | zero =>
    intro fu r ps ls _ _
    simpa using interactive_zero_retries m input fu r ps ls
  | succ k ih =>
    intro fu r ps ls hlen hok
    cases ps with
    | nil => simp at hlen
    | cons p0 ps =>
      obtain ⟨mp, rfl⟩ := hok p0 (by simp)
      obtain ⟨e, he, hres⟩ := H mp fu
      have h1 : ((k + 1 : Nat) : Int) ≠ 0 := by exact_mod_cast Nat.succ_ne_zero k
      rw [interactive_residual_step m input _ fu r mp ps ls e h1 he hres]
      have h2 : ((k + 1 : Nat) : Int) - 1 = (k : Int) := by push_cast; ring
      rw [h2]
      have hlen' : k ≤ ps.length := by simpa using hlen
      have hok' : ∀ resp ∈ ps.take k, ∃ mp, resp = .ok mp := by
        intro resp hresp
        refine hok resp ?_
        rw [List.take_succ_cons]
        exact List.mem_cons_of_mem _ hresp
      simpa using ih false true ps ls hlen' hok'

/-- C1: a retry budget of `0` yields `CorruptionLikelyError` at once, with
both response streams untouched (in particular no master password is
prompted for); any decryption failure outside
{`CorruptionError`, `OutdatedRoosterBinaryError`, io, `NeedUpgradeErrorFromV1`}
recurses with the budget decremented by one; hence when the open always
fails that way, a budget of `n` consumes `n` password prompts and ends in
`CorruptionLikelyError`. -/
theorem interactive_retry_budget (m : PasswordModule) (input : SafeVec) :
    (∀ (fu r : Bool) (ps : List PwResp) (ls : List LineResp),
      get_password_store_from_input_interactive m input 0 fu r ps ls =
        some (.error .CorruptionLikelyError, ⟨ps, ls⟩)) ∧
    (∀ (retries : Int) (fu r : Bool) (mp : SafeString) (ps : List PwResp)
        (ls : List LineResp) (e : PasswordError), retries ≠ 0 →
      get_password_store_from_input m input mp fu = .error e →
      residual_decrypt_failure e = true →
      get_password_store_from_input_interactive m input retries fu r (.ok mp :: ps) ls =
        get_password_store_from_input_interactive m input (retries - 1) false true ps ls) ∧
    (∀ (n : Nat) (fu r : Bool) (ps : List PwResp) (ls : List LineResp),
      (∀ mp fu', ∃ e, get_password_store_from_input m input mp fu' = .error e ∧
          residual_decrypt_failure e = true) →
      n ≤ ps.length →
      (∀ resp ∈ ps.take n, ∃ mp, resp = .ok mp) →
      get_password_store_from_input_interactive m input (n : Int) fu r ps ls =
        some (.error .CorruptionLikelyError, ⟨ps.drop n, ls⟩)) :=
  ⟨interactive_zero_retries m input,
   fun retries fu r mp ps ls e hr h hres =>
     interactive_residual_step m input retries fu r mp ps ls e hr h hres,
   fun n fu r ps ls H hlen hok =>
     interactive_eventual_corruption_likely m input H n fu r ps ls hlen hok⟩

theorem interactive_retry_budget_witness :
    get_password_store_from_input_interactive wrong_pw_module [] 0 false false
        [.ok "a"] [] = some (.error .CorruptionLikelyError, ⟨[.ok "a"], []⟩) ∧
    get_password_store_from_input_interactive wrong_pw_module [] 2 false false
        (.ok "a" :: [.ok "b"]) [] =
      get_password_store_from_input_interactive wrong_pw_module [] (2 - 1) false true
        [.ok "b"] [] ∧
    get_password_store_from_input_interactive wrong_pw_module [] ((2 : Nat) : Int) false false
        [.ok "a", .ok "b"] [] = some (.error .CorruptionLikelyError, ⟨[], []⟩) := by
  refine ⟨(interactive_retry_budget wrong_pw_module []).1 false false [.ok "a"] [],
    (interactive_retry_budget wrong_pw_module []).2.1 2 false false "a" [.ok "b"] []
      .DecryptionError (by decide) rfl rfl, ?_⟩
  have h := (interactive_retry_budget wrong_pw_module []).2.2 2 false false
    [.ok "a", .ok "b"] [] (fun mp fu' => ⟨.DecryptionError, rfl, rfl⟩)
    (by simp)
    (by
      intro resp hresp
      simp at hresp
      rcases hresp with rfl | rfl
      · exact ⟨"a", rfl⟩
      · exact ⟨"b", rfl⟩)
  simpa using h

/-- C3: `CorruptionError`, `OutdatedRoosterBinaryError` and io errors from
the inner open are surfaced as the same variant at once: exactly the one
master password already prompted for is consumed, the line stream is
untouched, and there is no recursive retry. -/
theorem interactive_fatal_error_passthrough (m : PasswordModule) (input : SafeVec)
    (retries : Int) (fu r : Bool) (mp : SafeString) (ps : List PwResp)
    (ls : List LineResp) (e : PasswordError) (hr : retries ≠ 0)
    (he : e = .CorruptionError ∨ e = .OutdatedRoosterBinaryError ∨ ∃ k, e = .IoErr k)
    (h : get_password_store_from_input m input mp fu = .error e) :
    get_password_store_from_input_interactive m input retries fu r (.ok mp :: ps) ls =
      some (.error e, ⟨ps, ls⟩) := by
  rw [get_password_store_from_input_interactive.eq_def, if_neg hr]
  simp only [h]
  rcases he with rfl | rfl | ⟨k, rfl⟩ <;> rfl

theorem interactive_fatal_error_passthrough_witness :
    get_password_store_from_input_interactive corrupt_module [] 3 false false
        (.ok "mp" :: [.ok "x"]) [.ok ['y']] =
      some (.error .CorruptionError, ⟨[.ok "x"], [.ok ['y']]⟩) :=
  interactive_fatal_error_passthrough corrupt_module [] 3 false false "mp" [.ok "x"]
    [.ok ['y']] .CorruptionError (by decide) (Or.inl rfl) rfl

theorem line_starts_n_not_y {l : List Char}
    (hn : line_starts_with l 'n' = true) : line_starts_with l 'y' = false := by
  cases l with
  | nil => simp [line_starts_with] at hn
  | cons c0 cs =>
    simp only [line_starts_with, beq_iff_eq] at hn ⊢
    rw [hn]
    decide

/-- C4: after a legacy container is detected (the inner open reports
`NeedUpgradeErrorFromV1`), a line starting with `n` yields `NoUpgradeError`,
a line starting with `y` re-runs the open with migration forced on the same
input and the same retry budget, and any other line is skipped and the
question re-asked. -/
theorem interactive_upgrade_question (m : PasswordModule) (input : SafeVec)
    (retries : Int) (fu r : Bool) (mp : SafeString) (ps : List PwResp)
    (hr : retries ≠ 0)
    (hv1 : get_password_store_from_input m input mp fu = .error .NeedUpgradeErrorFromV1) :
    (∀ (line : List Char) (rest : List LineResp), line_starts_with line 'n' = true →
      get_password_store_from_input_interactive m input retries fu r (.ok mp :: ps)
          (.ok line :: rest) =
        some (.error .NoUpgradeError, ⟨ps, rest⟩)) ∧
    (∀ (line : List Char) (rest : List LineResp), line_starts_with line 'y' = true →
      get_password_store_from_input_interactive m input retries fu r (.ok mp :: ps)
          (.ok line :: rest) =
        get_password_store_from_input_interactive m input retries true false ps rest) ∧
    (∀ (line : List Char) (rest : List LineResp), line_starts_with line 'y' = false →
      line_starts_with line 'n' = false →
      get_password_store_from_input_interactive m input retries fu r (.ok mp :: ps)
          (.ok line :: rest) =
        get_password_store_from_input_interactive m input retries fu r (.ok mp :: ps)
          rest) := by
  refine ⟨?_, ?_, ?_⟩
  · intro line rest hn
    have hy := line_starts_n_not_y hn
    have hread : read_upgrade_answer (.ok line :: rest) = some (.ok false, rest) := by
      simp [read_upgrade_answer, hy, hn]
    rw [get_password_store_from_input_interactive.eq_def, if_neg hr]
    simp only [hv1]
    split <;> simp_all
  · intro line rest hy
    have hread : read_upgrade_answer (.ok line :: rest) = some (.ok true, rest) := by
      simp [read_upgrade_answer, hy]
    rw [get_password_store_from_input_interactive.eq_def, if_neg hr]
    simp only [hv1]
    split <;> simp_all
  · intro line rest hy hn
    have hread : read_upgrade_answer (.ok line :: rest) = read_upgrade_answer rest := by
      simp [read_upgrade_answer, hy, hn]
    rw [get_password_store_from_input_interactive.eq_def, if_neg hr]
    conv_rhs => rw [get_password_store_from_input_interactive.eq_def]
    rw [if_neg hr]
    simp only [hv1]
    split <;> split <;> simp_all

theorem interactive_upgrade_question_witness :
    get_password_store_from_input_interactive v1_module [] 3 false false
        (.ok "mp" :: []) (.ok ['n', 'o'] :: []) =
      some (.error .NoUpgradeError, ⟨[], []⟩) ∧
    get_password_store_from_input_interactive v1_module [] 3 false false
        (.ok "mp" :: []) (.ok ['y'] :: []) =
      get_password_store_from_input_interactive v1_module [] 3 true false [] [] ∧
    get_password_store_from_input_interactive v1_module [] 3 false false
        (.ok "mp" :: []) (.ok ['x'] :: [.ok ['n']]) =
      get_password_store_from_input_interactive v1_module [] 3 false false
        (.ok "mp" :: []) [.ok ['n']] :=
  ⟨(interactive_upgrade_question v1_module [] 3 false false "mp" [] (by decide) rfl).1
      ['n', 'o'] [] (by decide),
   (interactive_upgrade_question v1_module [] 3 false false "mp" [] (by decide) rfl).2.1
      ['y'] [] (by decide),
   (interactive_upgrade_question v1_module [] 3 false false "mp" [] (by decide) rfl).2.2
      ['x'] [.ok ['n']] (by decide) (by decide)⟩

/-- C5: adding an entry whose name already exists fails with
`DuplicateEntry` and leaves the entry set exactly as it was (no partial
insertion); the TUI Add flow rejects an app name for which `has_password`
already holds, keeping the collection unchanged and raising a popup. -/
theorem add_password_duplicate_unchanged (s : PasswordStore) (entry : Password)
    (username pw : String) (h : s.has_password entry.name = true) :
    s.add_password entry = (.error .DuplicateEntry, s) ∧
    (tui_add_enter s entry.name username pw).store = s ∧
    (tui_add_enter s entry.name username pw).popup_text =
      some "App with that name already exists." := by
  have h2 : tui_add_enter s entry.name username pw =
      ⟨s, some "App with that name already exists.", false⟩ := by
    rw [tui_add_enter, if_pos h]
  exact ⟨by rw [PasswordStore.add_password, if_pos h], by rw [h2], by rw [h2]⟩

theorem add_password_duplicate_unchanged_witness :
    demo_store.add_password ⟨"github", "bob", "pw2"⟩ =
      (.error .DuplicateEntry, demo_store) ∧
    (tui_add_enter demo_store "github" "bob" "pw2").store = demo_store ∧
    (tui_add_enter demo_store "github" "bob" "pw2").popup_text =
      some "App with that name already exists." :=
  add_password_duplicate_unchanged demo_store ⟨"github", "bob", "pw2"⟩ "bob" "pw2"
    (by decide)

theorem has_password_iff_mem_names (s : PasswordStore) (n : String) :
    s.has_password n = true ↔ n ∈ store_names s := by
  simp [PasswordStore.has_password, store_names, List.any_eq_true, List.mem_map]

theorem apply_op_preserves_names_unique (s : PasswordStore) (op : StoreOp)
    (h : names_unique s) : names_unique (apply_op s op) := by
  cases op with
  | add e =>
    by_cases hhas : s.has_password e.name = true
    · simpa [apply_op, PasswordStore.add_password, hhas] using h
    · have hmem : e.name ∉ store_names s :=
        fun hc => hhas ((has_password_iff_mem_names s e.name).2 hc)
      simp only [apply_op, PasswordStore.add_password, hhas, Bool.false_eq_true,
        if_false]
      simp only [names_unique, store_names, List.map_append, List.map_cons,
        List.map_nil] at h ⊢
      rw [List.nodup_append]
      refine ⟨h, List.nodup_singleton _, ?_⟩
      intro a ha hb
      simp only [List.mem_singleton] at hb
      subst hb
      exact hmem ha
  | delete n =>
    by_cases hhas : s.has_password n = true
    · simp only [apply_op, PasswordStore.delete_password, hhas, if_true]
      exact List.Nodup.sublist (List.Sublist.map _ (List.filter_sublist _)) h
    · simpa [apply_op, PasswordStore.delete_password, hhas] using h
  | rename o n =>
    by_cases hnew : s.has_password n = true
    · simpa [apply_op, PasswordStore.rename, hnew] using h
    · by_cases hold : s.has_password o = true
      · have hmem : n ∉ store_names s :=
          fun hc => hnew ((has_password_iff_mem_names s n).2 hc)
        simp only [apply_op, PasswordStore.rename, hnew, hold, Bool.false_eq_true,
          if_false, if_true]
        simp only [names_unique, store_names, List.map_map] at h ⊢
        have heq : (Password.name ∘ fun p =>
            if p.name == o then { p with name := n } else p) =
            (fun nm => if nm == o then n else nm) ∘ Password.name := by
          funext p
          by_cases hp : p.name = o
          · simp [hp]
          · simp [hp]
        rw [heq, ← List.map_map]
        apply List.Nodup.map_on _ h
        intro x hx y hy hxy
        by_cases hxo : x == o <;> by_cases hyo : y == o <;>
          simp only [hxo, hyo, if_true, if_false] at hxy
        · exact (beq_iff_eq.mp hxo).trans (beq_iff_eq.mp hyo).symm
        · exact absurd (hxy ▸ hy) hmem
        · exact absurd (hxy ▸ hx) hmem
        · exact hxy
      · simpa [apply_op, PasswordStore.rename, hnew, hold] using h
  | transfer n u =>
    by_cases hhas : s.has_password n = true
    · simp only [apply_op, PasswordStore.transfer, hhas, if_true]
      simp only [names_unique, store_names, List.map_map] at h ⊢
      have heq : (Password.name ∘ fun p =>
          if p.name == n then { p with username := u } else p) = Password.name := by
        funext p
        by_cases hp : p.name = n
        · simp [hp]
        · simp [hp]
      rwa [heq]
    · simpa [apply_op, PasswordStore.transfer, hhas] using h

/-- C6: entry names stay unique: starting from a store satisfying the
uniqueness invariant (as an `unlock` produces), any sequence of
`add_password`, `delete_password`, `rename` and `transfer` operations
leaves no two entries with the same name. -/
theorem crud_preserves_names_unique (s : PasswordStore) (ops : List StoreOp)
    (h : names_unique s) : names_unique (apply_ops s ops) := by
  induction ops generalizing s with
  | nil => exact h
  | cons op ops ih =>
    exact ih (apply_op s op) (apply_op_preserves_names_unique s op h)

theorem crud_preserves_names_unique_witness :
    names_unique (apply_ops demo_store
      [.add ⟨"gitlab", "bob", "pw"⟩, .rename "github" "codeberg",
       .delete "gitlab", .transfer "codeberg" "carol"]) :=
  crud_preserves_names_unique demo_store _
    (show (store_names demo_store).Nodup by decide)

theorem read_n_append {n : Nat} {xs : List Nat} (rest : List Nat)
    (h : xs.length = n) : read_n n (xs ++ rest) = some (xs, rest) := by
  subst h
  induction xs generalizing rest with
  | nil => rfl
  | cons b bs ih => simp [read_n, ih]

theorem le32_length (n : Nat) : (le32 n).length = 4 := rfl

theorem le32_val_le32 {n : Nat} (h : n < 4294967296) : le32_val (le32 n) = n := by
  simp only [le32, le32_val]
  omega

/-- C7: for every well-formed current-version container, `serialize` is
the exact inverse of `parse`: the round trip `parse (serialize c) = c`
holds bit-for-bit. -/
theorem parse_serialize_roundtrip (c : FileContainer) (h : c.wf) :
    parse (serialize c) = .ok c := by
  obtain ⟨vt, ⟨l2n, rr, pp⟩, salt, ⟨iv, ct, tag⟩⟩ := c
  obtain ⟨hv, hl, hr, hp, hs, hi, ht⟩ := h
  simp only at hv hl hr hp hs hi ht
  subst hv
  simp only [serialize, parse, List.append_assoc]
  rw [if_neg (by simp), if_neg (by simp [current_version])]
  simp only [if_true]
  simp only [read_n_append _ (le32_length rr), read_n_append _ (le32_length pp),
    read_n_append _ hs, read_n_append _ hi, read_n_append _ ht,
    le32_val_le32 hr, le32_val_le32 hp]

theorem parse_serialize_roundtrip_witness :
    parse (serialize ⟨2, ⟨12, 8, 1⟩, List.replicate 32 7, ⟨List.replicate 16 9,
        [1, 2, 3], List.replicate 32 5⟩⟩) =
      .ok ⟨2, ⟨12, 8, 1⟩, List.replicate 32 7, ⟨List.replicate 16 9,
        [1, 2, 3], List.replicate 32 5⟩⟩ :=
  parse_serialize_roundtrip _ (by decide)

/-- C8: in `commands::add::callback` every sensitive buffer that was
allocated is scrubbed before the function returns, on every combination of
paths — successful or failed `add_password`, and failed master-password
read alike. -/
theorem add_callback_scrubs_every_buffer (account_read master_read : Option String)
    (add_ok : Bool) (b : Buf)
    (h : Ev.alloc b ∈ add_callback_trace account_read master_read add_ok) :
    Ev.scrub b ∈ add_callback_trace account_read master_read add_ok := by
  cases account_read <;> cases master_read <;> cases add_ok <;> cases b <;>
    simp_all [add_callback_trace]

theorem add_callback_scrubs_every_buffer_witness :
    Ev.alloc .master_password ∈ add_callback_trace (some "pw") (some "master") false ∧
    Ev.scrub .master_password ∈ add_callback_trace (some "pw") (some "master") false :=
  ⟨by decide,
   add_callback_scrubs_every_buffer (some "pw") (some "master") false
     .master_password (by decide)⟩

theorem only_digits_eq_true_iff (s : List Char) :
    only_digits s = true ↔ ∃ c ∈ s, c.isDigit = false := by
  simp [only_digits, List.contains, List.elem_eq_mem, List.mem_map]

theorem strip_plus_digits {v : List Char} (hd : ∀ c ∈ v, c.isDigit = true) :
    strip_plus v = v := by
  cases v with
  | nil => rfl
  | cons c cs =>
    have hc : c.isDigit = true := hd c (List.mem_cons_self c cs)
    have hne : c ≠ '+' := by
      intro hceq
      subst hceq
      simp at hc
    simp [strip_plus, hne]

theorem validate_arg_usize_eq_shape (v : List Char) :
    validate_arg_usize v = validate_shape usize_max v := rfl

theorem validate_arg_u8_eq_shape (v : List Char) :
    validate_arg_u8 v = validate_shape u8_max v := rfl

theorem validate_arg_u32_eq_shape (v : List Char) :
    validate_arg_u32 v = validate_shape u32_max v := rfl

theorem validate_shape_spec (max : Nat) (v : List Char) :
    (validate_shape max v = some (.error "The value must be made of digits") ↔
      ∃ c ∈ v, c.isDigit = false) ∧
    ((∀ c ∈ v, c.isDigit = true) → v ≠ [] → ∀ val, digits_value v = some val →
      (val ≤ max → validate_shape max v = some (.ok val)) ∧
      (max < val → validate_shape max v = none)) := by
  constructor
  · constructor
    · intro h
      by_cases hd : only_digits v = true
      · exact (only_digits_eq_true_iff v).1 hd
      · exfalso
        simp only [validate_shape, hd, Bool.false_eq_true, if_false] at h
        cases hp : parse_uint max v <;> simp [hp] at h
    · intro h
      have hd : only_digits v = true := (only_digits_eq_true_iff v).2 h
      simp [validate_shape, hd]
  · intro hall hne val hval
    have hd : only_digits v = false := by
      rcases hod : only_digits v with _ | _
      · rfl
      · obtain ⟨c, hc, hcd⟩ := (only_digits_eq_true_iff v).1 hod
        rw [hall c hc] at hcd
        exact absurd hcd (by simp)
    have hstrip := strip_plus_digits hall
    have hparse : parse_uint max v =
        if val ≤ max then some val else none := by
      simp only [parse_uint, hstrip, if_neg hne, hval]
    constructor
    · intro hle
      simp [validate_shape, hd, hparse, hle]
    · intro hgt
      simp [validate_shape, hd, hparse, Nat.not_le.2 hgt]

/-- C9: the validators reject exactly the strings containing a non-digit
character; every all-digit string goes to `parse().unwrap()`, so the empty
string and any all-digit string beyond the target type's range panic
instead of returning `Err`.  (Shown for each of `usize`, `u8`, `u32`.) -/
theorem validate_arg_panics (v : List Char) (val : Nat) :
    (validate_arg_usize v = some (.error "The value must be made of digits") ↔
      ∃ c ∈ v, c.isDigit = false) ∧
    (validate_arg_u8 v = some (.error "The value must be made of digits") ↔
      ∃ c ∈ v, c.isDigit = false) ∧
    (validate_arg_u32 v = some (.error "The value must be made of digits") ↔
      ∃ c ∈ v, c.isDigit = false) ∧
    (validate_arg_usize [] = none ∧ validate_arg_u8 [] = none ∧
      validate_arg_u32 [] = none) ∧
    ((∀ c ∈ v, c.isDigit = true) → v ≠ [] → digits_value v = some val →
      (usize_max < val → validate_arg_usize v = none) ∧
      (u8_max < val → validate_arg_u8 v = none) ∧
      (u32_max < val → validate_arg_u32 v = none) ∧
      (val ≤ u8_max → validate_arg_u8 v = some (.ok val))) := by
  refine ⟨?_, ?_, ?_, ⟨rfl, rfl, rfl⟩, ?_⟩
  · rw [validate_arg_usize_eq_shape]
    exact (validate_shape_spec usize_max v).1
  · rw [validate_arg_u8_eq_shape]
    exact (validate_shape_spec u8_max v).1
  · rw [validate_arg_u32_eq_shape]
    exact (validate_shape_spec u32_max v).1
  · intro hall hne hval
    have hus := (validate_shape_spec usize_max v).2 hall hne val hval
    have hu8 := (validate_shape_spec u8_max v).2 hall hne val hval
    have hu32 := (validate_shape_spec u32_max v).2 hall hne val hval
    rw [validate_arg_usize_eq_shape, validate_arg_u8_eq_shape,
      validate_arg_u32_eq_shape]
    exact ⟨fun hgt => hus.2 hgt, fun hgt => hu8.2 hgt, fun hgt => hu32.2 hgt,
      fun hle => hu8.1 hle⟩

theorem validate_arg_panics_witness :
    (validate_arg_usize ['1', 'x'] =
        some (.error "The value must be made of digits") ↔
      ∃ c ∈ ['1', 'x'], c.isDigit = false) ∧
    (validate_arg_usize [] = none) ∧
    (validate_arg_u8 ['9', '9', '9'] = none) := by
  have h := validate_arg_panics ['1', 'x'] 0
  have h2 := validate_arg_panics ['9', '9', '9'] 999
  refine ⟨h.1, h.2.2.2.1.1, ?_⟩
  exact (h2.2.2.2.2 (by decide) (by decide) (by decide)).2.1 (by decide)

/-- C10: the View tab is not total on an unlocked store with zero entries:
the scroll-state computation of `render_view_tab` underflows
`passwords.len() - 1` and panics for every selection state, and the F2/F3
copy handlers and the Ctrl+Shift+Del delete handler, which index
`get_all_passwords()[selected_index]` without a bounds check, panic for
every selected index (in particular for the initial selection `0`). -/
theorem view_tab_empty_store_panics (store : PasswordStore)
    (h : store.get_all_passwords = []) :
    (∀ selected, render_view_tab_scroll store selected = none) ∧
    (∀ index, tui_f2_copy_username store (some index) = none) ∧
    (∀ index, tui_f3_copy_password store (some index) = none) ∧
    (∀ index, tui_delete_selected store (some index) = none) := by
  refine ⟨?_, ?_, ?_, ?_⟩
  · intro selected
    simp [render_view_tab_scroll, h, usize_sub]
  · intro index
    simp [tui_f2_copy_username, h]
  · intro index
    simp [tui_f3_copy_password, h]
  · intro index
    simp [tui_delete_selected, h]

theorem view_tab_empty_store_panics_witness :
    (⟨[]⟩ : PasswordStore).get_all_passwords = [] ∧
    render_view_tab_scroll ⟨[]⟩ (some 0) = none ∧
    tui_f2_copy_username ⟨[]⟩ (some 0) = none ∧
    tui_f3_copy_password ⟨[]⟩ (some 0) = none ∧
    tui_delete_selected ⟨[]⟩ (some 0) = none := by
  have h := view_tab_empty_store_panics ⟨[]⟩ rfl
  exact ⟨rfl, h.1 (some 0), h.2.1 0, h.2.2.1 0, h.2.2.2 0⟩

end Rooster
